import Mathlib

/-!
# Verification of the linux-loader kernel-loader module

A shallow embedding of `src/loader/mod.rs` of the `linux-loader` crate:
the error taxonomy, the `From` conversions and `Error::source`, and the
command-line writer `load_cmdline`, together with theorems about them.

Guest memory is modelled as a single contiguous region of bytes starting
at a base guest address, matching the memory used by the crate's tests
(`GuestMemoryMmap::from_ranges(&[(GuestAddress(0), MEM_SIZE)])`), but with
an arbitrary base so that a bounded write can fail after the overflow and
capacity checks pass (exercising the `CommandLineCopy` path).  Machine
addresses are `u64`; we model them as `Nat` with explicit bounds against
`2^64 - 1` where the code uses checked arithmetic.
-/

namespace LinuxLoader

instance {ε α : Type} [DecidableEq ε] [DecidableEq α] : DecidableEq (Except ε α)
  | Except.ok a, Except.ok b =>
    if h : a = b then isTrue (by rw [h]) else isFalse (by simp [h])
  | Except.ok _, Except.error _ => isFalse (by simp)
  | Except.error _, Except.ok _ => isFalse (by simp)
  | Except.error e, Except.error f =>
    if h : e = f then isTrue (by rw [h]) else isFalse (by simp [h])

/-- `u64::MAX`, the largest representable guest address. -/
def U64MAX : Nat := 2 ^ 64 - 1

/-- `GuestAddress::checked_add`: overflow-checked `u64` addition, `None`
on overflow past `u64::MAX`. -/
def checked_add (a b : Nat) : Option Nat :=
  if a + b ≤ U64MAX then some (a + b) else none

/-- A guest memory made of one contiguous byte region: `base` is the
guest address of its first byte and `data` its contents (each entry one
byte).  This models the `GuestMemory` capability as the loader uses it. -/
structure GuestMem where
  base : Nat
  data : List Nat
deriving DecidableEq, Repr

/-- `GuestMemory::last_addr`: the highest valid guest address. -/
def last_addr (m : GuestMem) : Nat := m.base + m.data.length - 1

/-- Overwrite `bs.length` bytes of `l` starting at offset `off`. -/
def setBytes (l : List Nat) (off : Nat) (bs : List Nat) : List Nat :=
  l.take off ++ bs ++ l.drop (off + bs.length)

/-- `GuestMemory::write_slice`: bounded write of `bs` at guest address
`addr`; fails (writing nothing) unless the whole range lies inside the
region. -/
def write_slice (m : GuestMem) (bs : List Nat) (addr : Nat) : Option GuestMem :=
  if m.base ≤ addr ∧ addr + bs.length ≤ m.base + m.data.length then
    some { base := m.base, data := setBytes m.data (addr - m.base) bs }
  else none

/-- Bounded read of the single byte at guest address `a`
(`GuestMemory::read_obj::<u8>`). -/
def readByte (m : GuestMem) (a : Nat) : Option Nat :=
  if m.base ≤ a then m.data[a - m.base]? else none

/-- Modelled from the spec: the Command Line Carrier (`Cmdline`, defined
in the repository's `cmdline` module, which is not among the given
sources).  Per the spec it is an immutable, previously validated string
assembled elsewhere; the loader reads only its string form and its byte
length, so it is modelled as the list of bytes of `cmdline.as_str()`. -/
structure Cmdline where
  bytes : List Nat
deriving DecidableEq, Repr

/-- `cmdline.as_str().len()`: the byte length of the command line. -/
def Cmdline.len (c : Cmdline) : Nat := c.bytes.length

/-- Modelled from the spec: `elf::Error`, the ELF loader's sub-error
(its module is not among the given sources); the loader only wraps and
reports it, so its content is abstracted to a tag. -/
structure ElfError where
  code : Nat
deriving DecidableEq, Repr

/-- Modelled from the spec: `bzimage::Error`, the bzImage loader's
sub-error (its module is not among the given sources). -/
structure BzimageError where
  code : Nat
deriving DecidableEq, Repr

/-- Modelled from the spec: `pe::Error`, the PE loader's sub-error
(its module is not among the given sources). -/
structure PeError where
  code : Nat
deriving DecidableEq, Repr

/-- The kernel loader error taxonomy (`enum Error` in `loader/mod.rs`). -/
inductive Error where
  | Bzimage (e : BzimageError)
  | Elf (e : ElfError)
  | Pe (e : PeError)
  | CommandLineCopy
  | CommandLineOverflow
  | InvalidKernelStartAddress
  | MemoryOverflow
deriving DecidableEq, Repr

/-- The dynamic cause returned by `std::error::Error::source`: one of
the three format sub-errors. -/
inductive SourceError where
  | bzimage (e : BzimageError)
  | elf (e : ElfError)
  | pe (e : PeError)
deriving DecidableEq, Repr

/-- `Error::source` from the `std::error::Error` impl: the wrapped
format sub-error for the three format variants, `None` otherwise. -/
def Error.source : Error → Option SourceError
  | .Bzimage e => some (.bzimage e)
  | .Elf e => some (.elf e)
  | .Pe e => some (.pe e)
  | .CommandLineCopy => none
  | .CommandLineOverflow => none
  | .InvalidKernelStartAddress => none
  | .MemoryOverflow => none

/-- `impl From<elf::Error> for Error`. -/
def Error.from_elf (e : ElfError) : Error := Error.Elf e

/-- `impl From<bzimage::Error> for Error`. -/
def Error.from_bzimage (e : BzimageError) : Error := Error.Bzimage e

/-- `impl From<pe::Error> for Error`. -/
def Error.from_pe (e : PeError) : Error := Error.Pe e

/-- `load_cmdline` from `loader/mod.rs`.  The Rust function mutates
`guest_mem` through the write; the embedding returns the result paired
with the memory after the call. -/
def load_cmdline (guest_mem : GuestMem) (guest_addr : Nat) (cmdline : Cmdline) :
    Except Error Unit × GuestMem :=
  let len := cmdline.len
  if len = 0 then
    (Except.ok (), guest_mem)
  else
    match checked_add guest_addr (len + 1) with
    | none => (Except.error Error.CommandLineOverflow, guest_mem)
    | some e =>
      if e > last_addr guest_mem then
        (Except.error Error.CommandLineOverflow, guest_mem)
      else
        match write_slice guest_mem cmdline.bytes guest_addr with
        | none => (Except.error Error.CommandLineCopy, guest_mem)
        | some m2 => (Except.ok (), m2)

/-! ## Helper lemmas -/

theorem setBytes_length {l bs : List Nat} {off : Nat}
    (h : off + bs.length ≤ l.length) :
    (setBytes l off bs).length = l.length := by
  simp only [setBytes, List.length_append, List.length_take, List.length_drop]
  omega

theorem setBytes_getElem?_left {l bs : List Nat} {off j : Nat}
    (hj : j < off) (hoff : off ≤ l.length) :
    (setBytes l off bs)[j]? = l[j]? := by
  have h1 : j < ((l.take off).length) := by
    simp only [List.length_take]; omega
  have h2 : j < ((l.take off ++ bs).length) := by
    simp only [List.length_append]; omega
  rw [setBytes, List.getElem?_append_left h2, List.getElem?_append_left h1,
    List.getElem?_take_of_lt hj]

theorem setBytes_getElem?_mid {l bs : List Nat} {off j : Nat}
    (hoff : off ≤ l.length) (hj : j < bs.length) :
    (setBytes l off bs)[off + j]? = bs[j]? := by
  have htk : (l.take off).length = off := by
    simp only [List.length_take]; omega
  have h2 : off + j < ((l.take off ++ bs).length) := by
    simp only [List.length_append, htk]; omega
  have h1 : (l.take off).length ≤ off + j := by omega
  rw [setBytes, List.getElem?_append_left h2, List.getElem?_append_right h1, htk]
  congr 1
  omega

theorem setBytes_getElem?_right {l bs : List Nat} {off j : Nat}
    (hoff : off + bs.length ≤ l.length) (hj : off + bs.length ≤ j) :
    (setBytes l off bs)[j]? = l[j]? := by
  have htk : (l.take off).length = off := by
    simp only [List.length_take]; omega
  have h2 : ((l.take off ++ bs).length) ≤ j := by
    simp only [List.length_append, htk]; omega
  rw [setBytes, List.getElem?_append_right h2, List.getElem?_drop]
  congr 1
  simp only [List.length_append, htk]
  omega

theorem write_slice_eq_some {m : GuestMem} {bs : List Nat} {addr : Nat}
    (h1 : m.base ≤ addr) (h2 : addr + bs.length ≤ m.base + m.data.length) :
    write_slice m bs addr =
      some { base := m.base, data := setBytes m.data (addr - m.base) bs } := by
  rw [write_slice, if_pos ⟨h1, h2⟩]

theorem write_slice_eq_none {m : GuestMem} {bs : List Nat} {addr : Nat}
    (h : ¬ (m.base ≤ addr ∧ addr + bs.length ≤ m.base + m.data.length)) :
    write_slice m bs addr = none := by
  rw [write_slice, if_neg h]

/-- Unfolding of `load_cmdline` for a non-empty command line, with the
overflow check spelled out arithmetically. -/
theorem load_cmdline_nonempty (m : GuestMem) (addr : Nat) (cl : Cmdline)
    (hL : cl.len ≠ 0) :
    load_cmdline m addr cl =
      if U64MAX < addr + cl.len + 1 then
        (Except.error Error.CommandLineOverflow, m)
      else if last_addr m < addr + cl.len + 1 then
        (Except.error Error.CommandLineOverflow, m)
      else
        match write_slice m cl.bytes addr with
        | none => (Except.error Error.CommandLineCopy, m)
        | some m2 => (Except.ok (), m2) := by
  rw [load_cmdline]
  simp only [hL, if_false, checked_add]
  by_cases h1 : addr + (cl.len + 1) ≤ U64MAX
  · rw [if_pos h1]
    dsimp only
    have h1' : ¬ U64MAX < addr + cl.len + 1 := by omega
    rw [if_neg h1']
    by_cases h2 : addr + (cl.len + 1) > last_addr m
    · rw [if_pos h2, if_pos (by omega)]
    · rw [if_neg h2, if_neg (by omega)]
  · rw [if_neg h1, if_pos (by omega)]

/-- `load_cmdline` succeeds on a non-empty command line exactly when the
checked addition does not overflow, the end address is within the memory,
and the bounded write is in range. -/
theorem load_cmdline_ok_iff (m : GuestMem) (addr : Nat) (cl : Cmdline)
    (hL : cl.len ≠ 0) :
    (load_cmdline m addr cl).1 = Except.ok () ↔
      (addr + cl.len + 1 ≤ U64MAX ∧ addr + cl.len + 1 ≤ last_addr m ∧
       m.base ≤ addr ∧ addr + cl.len ≤ m.base + m.data.length) := by
  rw [load_cmdline_nonempty m addr cl hL]
  by_cases h1 : U64MAX < addr + cl.len + 1
  · rw [if_pos h1]
    simp only [Prod.fst]
    constructor
    · intro h; exact absurd h (by simp)
    · intro h; omega
  · rw [if_neg h1]
    by_cases h2 : last_addr m < addr + cl.len + 1
    · rw [if_pos h2]
      simp only [Prod.fst]
      constructor
      · intro h; exact absurd h (by simp)
      · intro h; omega
    · rw [if_neg h2]
      by_cases h3 : m.base ≤ addr ∧ addr + cl.bytes.length ≤ m.base + m.data.length
      · rw [write_slice_eq_some h3.1 h3.2]
        simp only [Prod.fst, true_iff]
        exact ⟨by omega, by omega, h3.1, h3.2⟩
      · rw [write_slice_eq_none h3]
        simp only [Prod.fst]
        constructor
        · intro h; exact absurd h (by simp)
        · intro h; exact absurd ⟨h.2.2.1, h.2.2.2⟩ h3

/-- On a non-empty command line whose checks and write all pass,
`load_cmdline` returns success and the memory with exactly the command
line's bytes spliced in at the target offset. -/
theorem load_cmdline_ok_eq (m : GuestMem) (addr : Nat) (cl : Cmdline)
    (hL : cl.len ≠ 0)
    (h1 : addr + cl.len + 1 ≤ U64MAX) (h2 : addr + cl.len + 1 ≤ last_addr m)
    (h3 : m.base ≤ addr) (h4 : addr + cl.len ≤ m.base + m.data.length) :
    load_cmdline m addr cl =
      (Except.ok (), { base := m.base,
                       data := setBytes m.data (addr - m.base) cl.bytes }) := by
  rw [load_cmdline_nonempty m addr cl hL, if_neg (by omega), if_neg (by omega),
    write_slice_eq_some h3 h4]

/-! ## Claim theorems -/

/-- C3: `load_cmdline` with a command line of string length zero returns
success and performs no write: the guest memory is returned unchanged,
for every guest memory and every guest address. -/
theorem C3_empty_cmdline_noop (m : GuestMem) (addr : Nat) (cl : Cmdline)
    (h : cl.len = 0) :
    load_cmdline m addr cl = (Except.ok (), m) := by
  rw [load_cmdline]
  simp only [h, if_true, if_pos]

/-- Witness for C3 at a concrete memory, address and empty command line. -/
theorem C3_empty_cmdline_noop_witness :
    load_cmdline ⟨0, [7, 7, 7]⟩ 123456789 ⟨[]⟩ = (Except.ok (), ⟨0, [7, 7, 7]⟩) :=
  C3_empty_cmdline_noop ⟨0, [7, 7, 7]⟩ 123456789 ⟨[]⟩ rfl

/-- C2: for a non-empty command line, `load_cmdline` fails with
`Error::CommandLineOverflow` exactly when the checked addition
`guest_addr + len + 1` overflows `u64`, or the resulting end address
exceeds the guest memory's highest valid address; the arithmetic is the
exact sum, never a wrapped one. -/
theorem C2_overflow_exact (m : GuestMem) (addr : Nat) (cl : Cmdline)
    (hL : cl.len ≠ 0) :
    (load_cmdline m addr cl).1 = Except.error Error.CommandLineOverflow ↔
      (U64MAX < addr + cl.len + 1 ∨ last_addr m < addr + cl.len + 1) := by
  rw [load_cmdline_nonempty m addr cl hL]
  by_cases h1 : U64MAX < addr + cl.len + 1
  · rw [if_pos h1]
    simp only [Prod.fst]
    exact ⟨fun _ => Or.inl h1, fun _ => trivial⟩
  · rw [if_neg h1]
    by_cases h2 : last_addr m < addr + cl.len + 1
    · rw [if_pos h2]
      simp only [Prod.fst]
      exact ⟨fun _ => Or.inr h2, fun _ => trivial⟩
    · rw [if_neg h2]
      constructor
      · intro h
        exfalso
        rcases heq : write_slice m cl.bytes addr with _ | m2 <;>
          rw [heq] at h <;> simp at h
      · intro h
        omega

/-- Witness for C2 at a concrete in-bounds-address overflow. -/
theorem C2_overflow_exact_witness :
    (load_cmdline ⟨0, [0, 0, 0, 0]⟩ 10 ⟨[1]⟩).1 =
      Except.error Error.CommandLineOverflow :=
  (C2_overflow_exact ⟨0, [0, 0, 0, 0]⟩ 10 ⟨[1]⟩ (by decide)).mpr (by decide)

/-- C9: whenever `load_cmdline` returns `Error::CommandLineOverflow`, no
write to guest memory has been attempted: the memory after the call is
byte-for-byte the memory before it. -/
theorem C9_overflow_leaves_memory (m : GuestMem) (addr : Nat) (cl : Cmdline)
    (h : (load_cmdline m addr cl).1 = Except.error Error.CommandLineOverflow) :
    (load_cmdline m addr cl).2 = m := by
  by_cases hL : cl.len = 0
  · rw [load_cmdline]
    simp only [hL, if_true, if_pos]
  · rw [load_cmdline_nonempty m addr cl hL]
    by_cases h1 : U64MAX < addr + cl.len + 1
    · rw [if_pos h1]
    · rw [if_neg h1]
      by_cases h2 : last_addr m < addr + cl.len + 1
      · rw [if_pos h2]
      · exfalso
        rw [load_cmdline_nonempty m addr cl hL, if_neg h1, if_neg h2] at h
        rcases heq : write_slice m cl.bytes addr with _ | m2 <;>
          rw [heq] at h <;> simp at h

/-- Witness for C9 at a concrete overflowing call. -/
theorem C9_overflow_leaves_memory_witness :
    (load_cmdline ⟨0, [3, 1, 4]⟩ 50 ⟨[9]⟩).2 = ⟨0, [3, 1, 4]⟩ :=
  C9_overflow_leaves_memory ⟨0, [3, 1, 4]⟩ 50 ⟨[9]⟩ (by decide)

/-- C8: `load_cmdline` is total: on every guest memory, guest address and
command line it returns either success or one of the typed errors
`CommandLineOverflow` / `CommandLineCopy`; there is no other outcome. -/
theorem C8_total_no_panic (m : GuestMem) (addr : Nat) (cl : Cmdline) :
    (load_cmdline m addr cl).1 = Except.ok () ∨
    (load_cmdline m addr cl).1 = Except.error Error.CommandLineOverflow ∨
    (load_cmdline m addr cl).1 = Except.error Error.CommandLineCopy := by
  by_cases hL : cl.len = 0
  · left
    rw [load_cmdline]
    simp only [hL, if_true, if_pos]
  · rw [load_cmdline_nonempty m addr cl hL]
    by_cases h1 : U64MAX < addr + cl.len + 1
    · rw [if_pos h1]; right; left; rfl
    · rw [if_neg h1]
      by_cases h2 : last_addr m < addr + cl.len + 1
      · rw [if_pos h2]; right; left; rfl
      · rw [if_neg h2]
        rcases heq : write_slice m cl.bytes addr with _ | m2
        · right; right; rfl
        · left; rfl

/-- C7: converting any format sub-error into the top-level `Error` yields
the corresponding wrapping variant, and `Error::source` on the result
returns exactly the original sub-error, so the conversion is lossless. -/
theorem C7_from_source_lossless (e1 : ElfError) (e2 : BzimageError) (e3 : PeError) :
    Error.from_elf e1 = Error.Elf e1 ∧
    (Error.from_elf e1).source = some (SourceError.elf e1) ∧
    Error.from_bzimage e2 = Error.Bzimage e2 ∧
    (Error.from_bzimage e2).source = some (SourceError.bzimage e2) ∧
    Error.from_pe e3 = Error.Pe e3 ∧
    (Error.from_pe e3).source = some (SourceError.pe e3) :=
  ⟨rfl, rfl, rfl, rfl, rfl, rfl⟩

/-- Reading inside the range just written by a successful bounded write
returns the written bytes. -/
theorem readByte_setBytes_in (m : GuestMem) (addr i : Nat) (bs : List Nat)
    (h3 : m.base ≤ addr) (h4 : addr + bs.length ≤ m.base + m.data.length)
    (hi : i < bs.length) :
    readByte { base := m.base, data := setBytes m.data (addr - m.base) bs }
        (addr + i) = bs[i]? := by
  rw [readByte, if_pos (by omega : m.base ≤ addr + i)]
  have hidx : addr + i - m.base = (addr - m.base) + i := by omega
  rw [hidx]
  exact setBytes_getElem?_mid (by omega) hi

/-- Reading outside the range just written by a successful bounded write
returns the byte the memory held before the write. -/
theorem readByte_setBytes_out (m : GuestMem) (addr a : Nat) (bs : List Nat)
    (h3 : m.base ≤ addr) (h4 : addr + bs.length ≤ m.base + m.data.length)
    (ha : a < addr ∨ addr + bs.length ≤ a) :
    readByte { base := m.base, data := setBytes m.data (addr - m.base) bs } a =
      readByte m a := by
  unfold readByte
  dsimp only
  by_cases hb : m.base ≤ a
  · rw [if_pos hb, if_pos hb]
    rcases ha with ha | ha
    · exact setBytes_getElem?_left (by omega) (by omega)
    · exact setBytes_getElem?_right (by omega) (by omega)
  · rw [if_neg hb, if_neg hb]

/-- C1 counterexample: the claim's success condition and its read-back
clause both fail on the code.  With a guest memory of size `S = 10`
starting at 0, address 4 and a 5-byte command line, `4 + 5 + 1 ≤ 10`
holds, yet the call fails with `CommandLineOverflow` (the code demands
`end ≤ last_addr = S - 1`).  And with a size-12 memory filled with the
byte 7, the same call succeeds but the byte read back at
`guest_addr + L = 9` is 7, not the claimed null terminator (the code
never writes the terminator byte). -/
theorem C1_counterexample :
    (4 + 5 + 1 ≤ 10 ∧
     (load_cmdline ⟨0, List.replicate 10 0⟩ 4 ⟨[1, 2, 3, 4, 5]⟩).1 =
       Except.error Error.CommandLineOverflow) ∧
    ((load_cmdline ⟨0, List.replicate 12 7⟩ 4 ⟨[1, 2, 3, 4, 5]⟩).1 =
       Except.ok () ∧
     readByte (load_cmdline ⟨0, List.replicate 12 7⟩ 4 ⟨[1, 2, 3, 4, 5]⟩).2 9 =
       some 7) := by
  decide

/-- C1 (amended): for a guest memory of total size `S` based at address 0
(`S` representable, i.e. `S ≤ 2^64`) and a non-empty command line of byte
length `L`, `load_cmdline` succeeds iff `guest_addr + L + 2 ≤ S`
(equivalently `guest_addr + L + 1 ≤ S - 1`, the code comparing the end
address against the highest valid address `S - 1`); on success the `L`
bytes read back from `[guest_addr, guest_addr + L)` are exactly the
command line's bytes, and the byte at `guest_addr + L` is unchanged from
before the call — it is the null terminator exactly when the memory
already held a zero there. -/
theorem C1_amended_success_roundtrip (S addr : Nat) (cl : Cmdline) (m : GuestMem)
    (hbase : m.base = 0) (hS : m.data.length = S) (hS64 : S ≤ 2 ^ 64)
    (hL : cl.len ≠ 0) :
    ((load_cmdline m addr cl).1 = Except.ok () ↔ addr + cl.len + 2 ≤ S) ∧
    ((load_cmdline m addr cl).1 = Except.ok () →
      (∀ i, i < cl.len →
        readByte (load_cmdline m addr cl).2 (addr + i) = cl.bytes[i]?) ∧
      readByte (load_cmdline m addr cl).2 (addr + cl.len) =
        readByte m (addr + cl.len)) := by
  have hiff := load_cmdline_ok_iff m addr cl hL
  have hcond : (addr + cl.len + 1 ≤ U64MAX ∧ addr + cl.len + 1 ≤ last_addr m ∧
      m.base ≤ addr ∧ addr + cl.len ≤ m.base + m.data.length) ↔
      addr + cl.len + 2 ≤ S := by
    rw [last_addr, hbase, hS]
    have hL' : cl.len ≠ 0 := hL
    unfold U64MAX
    omega
  constructor
  · rw [hiff, hcond]
  · intro hok
    have hc := hcond.mpr ((hcond.mp (hiff.mp hok)))
    have h := hiff.mp hok
    rw [load_cmdline_ok_eq m addr cl hL h.1 h.2.1 h.2.2.1 h.2.2.2]
    constructor
    · intro i hi
      exact readByte_setBytes_in m addr i cl.bytes h.2.2.1 h.2.2.2 hi
    · exact readByte_setBytes_out m addr (addr + cl.len) cl.bytes
        h.2.2.1 h.2.2.2 (Or.inr (le_refl _))

/-- Witness for the amended C1 at a concrete size-12 zeroed memory. -/
theorem C1_amended_success_roundtrip_witness :
    ((load_cmdline ⟨0, List.replicate 12 0⟩ 4 ⟨[1, 2, 3, 4, 5]⟩).1 =
        Except.ok () ↔ 4 + 5 + 2 ≤ 12) ∧
    ((load_cmdline ⟨0, List.replicate 12 0⟩ 4 ⟨[1, 2, 3, 4, 5]⟩).1 =
        Except.ok () →
      (∀ i, i < 5 →
        readByte (load_cmdline ⟨0, List.replicate 12 0⟩ 4 ⟨[1, 2, 3, 4, 5]⟩).2
          (4 + i) = [1, 2, 3, 4, 5][i]?) ∧
      readByte (load_cmdline ⟨0, List.replicate 12 0⟩ 4 ⟨[1, 2, 3, 4, 5]⟩).2
          (4 + 5) =
        readByte ⟨0, List.replicate 12 0⟩ (4 + 5)) :=
  C1_amended_success_roundtrip 12 4 ⟨[1, 2, 3, 4, 5]⟩ ⟨0, List.replicate 12 0⟩
    rfl (by simp) (by norm_num) (by decide)

/-- C4: for a non-empty command line passing the overflow and capacity
checks, if the bounded write succeeds then `load_cmdline` succeeds and
has written exactly the `len` command-line bytes starting at
`guest_addr` (every byte outside that range reads back unchanged), and
if the bounded write fails then `load_cmdline` returns
`Error::CommandLineCopy` with the memory unchanged. -/
theorem C4_write_exact_or_copy (m : GuestMem) (addr : Nat) (cl : Cmdline)
    (hL : cl.len ≠ 0)
    (h1 : addr + cl.len + 1 ≤ U64MAX) (h2 : addr + cl.len + 1 ≤ last_addr m) :
    (∀ m2, write_slice m cl.bytes addr = some m2 →
      load_cmdline m addr cl = (Except.ok (), m2) ∧
      (∀ i, i < cl.len → readByte m2 (addr + i) = cl.bytes[i]?) ∧
      (∀ a, a < addr ∨ addr + cl.len ≤ a → readByte m2 a = readByte m a)) ∧
    (write_slice m cl.bytes addr = none →
      load_cmdline m addr cl = (Except.error Error.CommandLineCopy, m)) := by
  constructor
  · intro m2 hw
    have hcond : m.base ≤ addr ∧ addr + cl.bytes.length ≤ m.base + m.data.length := by
      by_contra hc
      rw [write_slice_eq_none hc] at hw
      exact Option.noConfusion hw
    have hm2 : m2 = { base := m.base, data := setBytes m.data (addr - m.base) cl.bytes } := by
      rw [write_slice_eq_some hcond.1 hcond.2] at hw
      exact Option.some.inj hw.symm
    refine ⟨?_, ?_, ?_⟩
    · rw [load_cmdline_nonempty m addr cl hL, if_neg (by omega), if_neg (by omega), hw]
    · intro i hi
      rw [hm2]
      exact readByte_setBytes_in m addr i cl.bytes hcond.1 hcond.2 hi
    · intro a ha
      rw [hm2]
      exact readByte_setBytes_out m addr a cl.bytes hcond.1 hcond.2 ha
  · intro hw
    rw [load_cmdline_nonempty m addr cl hL, if_neg (by omega), if_neg (by omega), hw]

/-- Witness for C4: a concrete passing write (the command line spliced
into the middle of the region) obtained by applying the theorem. -/
theorem C4_write_exact_or_copy_witness :
    load_cmdline ⟨0, [7, 7, 7, 7, 7, 7]⟩ 2 ⟨[1, 2]⟩ =
      (Except.ok (), ⟨0, [7, 7, 1, 2, 7, 7]⟩) :=
  ((C4_write_exact_or_copy ⟨0, [7, 7, 7, 7, 7, 7]⟩ 2 ⟨[1, 2]⟩ (by decide)
      (by decide) (by decide)).1 ⟨0, [7, 7, 1, 2, 7, 7]⟩ (by decide)).1

/-- C10: when `load_cmdline` succeeds on a non-empty command line, the
only guest-memory bytes it modifies are the `len` bytes in
`[guest_addr, guest_addr + len)`: every byte outside that range — in
particular the reserved terminator byte at `guest_addr + len`, which the
function never writes — reads back exactly as before the call. -/
theorem C10_success_frame (m : GuestMem) (addr : Nat) (cl : Cmdline)
    (hL : cl.len ≠ 0)
    (hok : (load_cmdline m addr cl).1 = Except.ok ()) :
    (∀ a, a < addr ∨ addr + cl.len ≤ a →
      readByte (load_cmdline m addr cl).2 a = readByte m a) ∧
    readByte (load_cmdline m addr cl).2 (addr + cl.len) =
      readByte m (addr + cl.len) := by
  have h := (load_cmdline_ok_iff m addr cl hL).mp hok
  rw [load_cmdline_ok_eq m addr cl hL h.1 h.2.1 h.2.2.1 h.2.2.2]
  constructor
  · intro a ha
    exact readByte_setBytes_out m addr a cl.bytes h.2.2.1 h.2.2.2 ha
  · exact readByte_setBytes_out m addr (addr + cl.len) cl.bytes
      h.2.2.1 h.2.2.2 (Or.inr (le_refl _))

/-- Witness for C10 at a concrete successful call: the byte just past
the written range keeps its old value. -/
theorem C10_success_frame_witness :
    readByte (load_cmdline ⟨0, [7, 7, 7, 7, 7, 7]⟩ 1 ⟨[1, 2]⟩).2 (1 + 2) =
      readByte ⟨0, [7, 7, 7, 7, 7, 7]⟩ (1 + 2) :=
  (C10_success_frame ⟨0, [7, 7, 7, 7, 7, 7]⟩ 1 ⟨[1, 2]⟩ (by decide)
    (by decide)).2

/-- `MEM_SIZE` from the test module of `loader/mod.rs`. -/
def MEM_SIZE : Nat := 0x1000000

/-- `create_guest_mem` from the test module: a zeroed guest memory of
`MEM_SIZE` bytes based at guest address 0. -/
def create_guest_mem : GuestMem := ⟨0, List.replicate MEM_SIZE 0⟩

theorem create_guest_mem_base : create_guest_mem.base = 0 := rfl

theorem create_guest_mem_length : create_guest_mem.data.length = 16777216 := by
  show (List.replicate MEM_SIZE 0).length = 16777216
  rw [List.length_replicate]
  rfl

theorem create_guest_mem_last_addr : last_addr create_guest_mem = 16777215 := by
  rw [last_addr, create_guest_mem_base, create_guest_mem_length]

/-- C5 (`test_cmdline_overflow`): on the zeroed `MEM_SIZE = 0x100_0000`
memory based at 0, loading the 5-character command line `"12345"` at
guest address `MEM_SIZE - 5` fails with `Error::CommandLineOverflow`. -/
theorem C5_test_cmdline_overflow :
    (load_cmdline create_guest_mem (MEM_SIZE - 5) ⟨[49, 50, 51, 52, 53]⟩).1 =
      Except.error Error.CommandLineOverflow := by
  rw [load_cmdline_nonempty create_guest_mem (MEM_SIZE - 5)
    ⟨[49, 50, 51, 52, 53]⟩ (by decide)]
  rw [if_neg (by norm_num [MEM_SIZE, U64MAX, Cmdline.len]),
    if_pos (by rw [create_guest_mem_last_addr]; norm_num [MEM_SIZE, Cmdline.len])]

/-- C6 (`test_cmdline_write_end`): on the zeroed `MEM_SIZE = 0x100_0000`
memory based at 0, loading the 4-character command line `"1234"` at guest
address 45 succeeds, and the bytes at guest addresses 45, 46, 47, 48, 49
are the four characters `'1' '2' '3' '4'` followed by a null byte. -/
theorem C6_test_cmdline_write_end :
    (load_cmdline create_guest_mem 45 ⟨[49, 50, 51, 52]⟩).1 = Except.ok () ∧
    readByte (load_cmdline create_guest_mem 45 ⟨[49, 50, 51, 52]⟩).2 45 = some 49 ∧
    readByte (load_cmdline create_guest_mem 45 ⟨[49, 50, 51, 52]⟩).2 46 = some 50 ∧
    readByte (load_cmdline create_guest_mem 45 ⟨[49, 50, 51, 52]⟩).2 47 = some 51 ∧
    readByte (load_cmdline create_guest_mem 45 ⟨[49, 50, 51, 52]⟩).2 48 = some 52 ∧
    readByte (load_cmdline create_guest_mem 45 ⟨[49, 50, 51, 52]⟩).2 49 = some 0 := by
  have h1 : 45 + Cmdline.len ⟨[49, 50, 51, 52]⟩ + 1 ≤ U64MAX := by
    norm_num [U64MAX, Cmdline.len]
  have h2 : 45 + Cmdline.len ⟨[49, 50, 51, 52]⟩ + 1 ≤ last_addr create_guest_mem := by
    rw [create_guest_mem_last_addr]; norm_num [Cmdline.len]
  have h3 : create_guest_mem.base ≤ 45 := by rw [create_guest_mem_base]; omega
  have h4 : 45 + Cmdline.len ⟨[49, 50, 51, 52]⟩ ≤
      create_guest_mem.base + create_guest_mem.data.length := by
    rw [create_guest_mem_base, create_guest_mem_length]; norm_num [Cmdline.len]
  rw [load_cmdline_ok_eq create_guest_mem 45 ⟨[49, 50, 51, 52]⟩ (by decide)
    h1 h2 h3 h4]
  refine ⟨rfl, ?_, ?_, ?_, ?_, ?_⟩
  · simpa using readByte_setBytes_in create_guest_mem 45 0 [49, 50, 51, 52]
      h3 h4 (by norm_num)
  · simpa using readByte_setBytes_in create_guest_mem 45 1 [49, 50, 51, 52]
      h3 h4 (by norm_num)
  · simpa using readByte_setBytes_in create_guest_mem 45 2 [49, 50, 51, 52]
      h3 h4 (by norm_num)
  · simpa using readByte_setBytes_in create_guest_mem 45 3 [49, 50, 51, 52]
      h3 h4 (by norm_num)
  · have hout := readByte_setBytes_out create_guest_mem 45 49 [49, 50, 51, 52]
      h3 h4 (by norm_num)
    rw [hout, readByte,
      if_pos (by rw [create_guest_mem_base]; exact Nat.zero_le 49)]
    rw [create_guest_mem_base, Nat.sub_zero]
    show (List.replicate MEM_SIZE 0)[49]? = some 0
    rw [List.getElem?_replicate_of_lt (by norm_num [MEM_SIZE])]

end LinuxLoader
